import Mathlib

/-!
Verification of the good-works-stopwatch day-tracker core.

The definitions below are a shallow embedding of the repository's
time-tracking and persistence logic:

* `src/client/src/lib/utils.ts` (the storage half, exported under
  `@/lib/storage`): `loadTodayData`, `loadWeeklyData`, `archiveDay`,
  `exportDataToJson`, `importDataFromJson`;
* `src/client/src/hooks/useGoodWorks.ts`: the interval callbacks installed by
  `startCategory` (stopwatch tick) and `startTimer` (countdown tick), plus
  `stopActive`, `startCategory`, `startTimer` as a session state machine, and
  `editCategory`.

Modelling conventions:

* `localStorage` holds strings; every read in this code goes through
  `JSON.parse`, so a stored string is modelled up to its parse behaviour by
  `Ser`: either `Ser.jval v` (a string that is valid JSON parsing to `v`) or
  `Ser.garbage s` (a string that is not valid JSON; the payload `s` is kept
  because JavaScript truthiness distinguishes the empty string).
  `JSON.stringify` of a value `v` is modelled as `Ser.jval v`.
* JSON values are modelled by `JValue`. Numbers are modelled as integers: the
  program only ever stores integer second counts and the integer version tag,
  and no claim exercises float behaviour.
* JavaScript exceptions (TypeError on property access of null/undefined,
  SyntaxError from `JSON.parse`, `.push` on a non-array) are modelled with
  `Except Unit`.
* Machine time (`Date.now()`) is an `Int` number of milliseconds.
-/

namespace GoodWorks

/-- JSON values as stored and parsed by the app (numbers as integers, see the
file header). -/
inductive JValue where
  | null
  | bool (b : Bool)
  | num (n : Int)
  | str (s : String)
  | arr (l : List JValue)
  | obj (fields : List (String × JValue))

/-- A string held in localStorage, quotiented by its `JSON.parse` behaviour:
`jval v` is any string that parses to `v`, `garbage s` is the literal
non-JSON string `s`. -/
inductive Ser where
  | garbage (s : String)
  | jval (v : JValue)

/-- Model of `JSON.parse` on a stored string: garbage throws a SyntaxError. -/
def parseSer : Ser → Except Unit JValue
  | .garbage _ => .error ()
  | .jval v => .ok v

/-- JavaScript truthiness of a stored string (`if (raw)`): `null` is falsy,
the empty string is falsy, every other string is truthy. -/
def serTruthy : Ser → Bool
  | .garbage s => decide (s ≠ "")
  | .jval _ => true

/-- JavaScript truthiness of a parsed JSON value. -/
def jsTruthy : JValue → Bool
  | .null => false
  | .bool b => b
  | .num n => decide (n ≠ 0)
  | .str s => decide (s ≠ "")
  | .arr _ => true
  | .obj _ => true

/-- Whether `typeof v === 'object'` holds in JavaScript (`null`, arrays and
plain objects all have typeof object). -/
def jsTypeofObject : JValue → Bool
  | .null => true
  | .arr _ => true
  | .obj _ => true
  | _ => false

/-- First-match lookup in a JSON object's field list (the app never builds
objects with duplicate keys). -/
def lookupField : List (String × JValue) → String → Option JValue
  | [], _ => none
  | (k, v) :: rest, key => if k = key then some v else lookupField rest key

/-- JavaScript property access `v.k`: throws a TypeError on `null`; yields
the field on an object; yields undefined (`none`) on any other value (the
keys used by this program are not special properties of primitives or
arrays). -/
def jsField (v : JValue) (k : String) : Except Unit (Option JValue) :=
  match v with
  | .null => .error ()
  | .obj fields => .ok (lookupField fields k)
  | _ => .ok none

/-- JavaScript `Object.values(u)` where `u` may be undefined: throws on
undefined and null, lists field values of an object, elements of an array,
one-character strings of a string, and is empty on number/boolean. -/
def objValues : Option JValue → Except Unit (List JValue)
  | none => .error ()
  | some .null => .error ()
  | some (.obj fields) => .ok (fields.map (fun p => p.2))
  | some (.arr l) => .ok l
  | some (.str s) => .ok (s.toList.map (fun c => .str (String.singleton c)))
  | some (.num _) => .ok []
  | some (.bool _) => .ok []

/-- The whitespace set of JavaScript `String.prototype.trim()`: tab, line
feed, vertical tab, form feed, carriage return, space, no-break space, the
byte-order mark, and the Unicode space separators plus the line and
paragraph separators. -/
def jsWhitespace (c : Char) : Bool :=
  c.toNat = 9 || c.toNat = 10 || c.toNat = 11 || c.toNat = 12 || c.toNat = 13 ||
  c.toNat = 32 || c.toNat = 160 || c.toNat = 5760 ||
  (8192 ≤ c.toNat && c.toNat ≤ 8202) || c.toNat = 8232 || c.toNat = 8233 ||
  c.toNat = 8239 || c.toNat = 8287 || c.toNat = 12288 || c.toNat = 65279

/-- JavaScript `String.prototype.trim()`: strip leading and trailing
JavaScript whitespace (structurally recursive so that concrete inputs
evaluate). -/
def jsTrim (s : String) : String :=
  String.mk (((s.data.dropWhile jsWhitespace).reverse.dropWhile
    jsWhitespace).reverse)

/-- JavaScript numeric coercion of a JSON value, `none` standing for NaN.
Strings coerce through decimal-integer parsing (non-integer numerics are out
of the modelled range, as are array/object coercions, which no app data
exercises). -/
def jsNum : JValue → Option Int
  | .null => some 0
  | .bool b => some (if b then 1 else 0)
  | .num n => some n
  | .str s => if jsTrim s = "" then some 0 else (jsTrim s).toInt?
  | .arr _ => none
  | .obj _ => none

/-- JavaScript `t > 0` where `t` may be undefined: comparison under numeric
coercion, false whenever the coercion is NaN (in particular for undefined). -/
def jsGtZero : Option JValue → Bool
  | none => false
  | some v =>
    match jsNum v with
    | some n => decide (n > 0)
    | none => false

/-- JavaScript `v > 1` under numeric coercion (used for the version check of
`importDataFromJson`). -/
def jsGtOne (v : JValue) : Bool :=
  match jsNum v with
  | some n => decide (n > 1)
  | none => false

/-- JavaScript strict inequality `v !== t` between a possibly-undefined
property value and a string: strict comparison never coerces, so only a
string equal to `t` compares equal. -/
def jsStrictNeqStr (v : Option JValue) (t : String) : Bool :=
  match v with
  | some (.str s) => decide (s ≠ t)
  | _ => true

/-- JavaScript `a.push(x)` where `a` came from `JSON.parse`: appends to an
array, throws a TypeError on any non-array. -/
def jsPush (a : JValue) (x : JValue) : Except Unit (List JValue) :=
  match a with
  | .arr l => .ok (l ++ [x])
  | _ => .error ()

/-- Short-circuiting `Object.values(...).some(cat => cat.time > 0)` from
archiveDay: property access `cat.time` can throw (on a null element). -/
def anyTimeGt : List JValue → Except Unit Bool
  | [] => .ok false
  | c :: rest =>
    match jsField c "time" with
    | .error e => .error e
    | .ok t => if jsGtZero t then .ok true else anyTimeGt rest

/-- The `hasActivity` computation of archiveDay (utils.ts line 101):
`Object.values(dayData.categories).some(cat => cat.time > 0)`. -/
def hasActivityJ (dayData : JValue) : Except Unit Bool :=
  match jsField dayData "categories" with
  | .error e => .error e
  | .ok cats =>
    match objValues cats with
    | .error e => .error e
    | .ok vals => anyTimeGt vals

/-- The two independently stored blobs: `goodWorksData` (current day) and
`goodWorksWeekly` (historical log), each absent (`none`) or a stored
string. -/
structure LS where
  goodWorksData : Option Ser
  goodWorksWeekly : Option Ser

/-- The list the historical log is capped to (utils.ts lines 117-119):
`if (weekly.length > 365) weekly = weekly.slice(weekly.length - 365)`. -/
def slice365 (l : List JValue) : List JValue :=
  if l.length > 365 then l.drop (l.length - 365) else l

/-- The weekly value archiveDay starts from (utils.ts lines 104-111):
`weekly = weeklyRaw ? JSON.parse(weeklyRaw) : []` inside try/catch, so an
absent, empty or unparsable blob yields the empty array. -/
def weeklyInput (ls : LS) : JValue :=
  match ls.goodWorksWeekly with
  | none => .arr []
  | some b =>
    if serTruthy b then
      match parseSer b with
      | .ok v => v
      | .error _ => .arr []
    else .arr []

/-- archiveDay (utils.ts lines 99-126): if some category has time greater
than zero, push the day onto the weekly log and cap it at 365 entries;
afterwards remove the current-day blob unconditionally. A thrown TypeError
(malformed day value, or a valid-JSON non-array weekly blob being pushed to)
propagates before the removal, exactly as in the source. -/
def archiveDay (dayData : JValue) (ls : LS) : Except Unit LS :=
  match hasActivityJ dayData with
  | .error e => .error e
  | .ok act =>
    if act then
      match jsPush (weeklyInput ls) dayData with
      | .error e => .error e
      | .ok pushed =>
        .ok { ls with goodWorksWeekly := some (.jval (.arr (slice365 pushed))),
                      goodWorksData := none }
    else .ok { ls with goodWorksData := none }

/-- loadTodayData (utils.ts lines 50-67): read the current-day blob; if
absent or empty return an empty store; otherwise `JSON.parse` it with no
error handling, archive and return an empty store when its date differs from
today, and return its `categories` property when the date matches. The
result pairs the returned value (`none` standing for undefined) with the
updated storage. -/
def loadTodayData (today : String) (ls : LS) : Except Unit (Option JValue × LS) :=
  match ls.goodWorksData with
  | none => .ok (some (.obj []), ls)
  | some raw =>
    if serTruthy raw then
      match parseSer raw with
      | .error e => .error e
      | .ok parsed =>
        match jsField parsed "date" with
        | .error e => .error e
        | .ok d =>
          if jsStrictNeqStr d today then
            match archiveDay parsed ls with
            | .error e => .error e
            | .ok ls' => .ok (some (.obj []), ls')
          else
            match jsField parsed "categories" with
            | .error e => .error e
            | .ok cats => .ok (cats, ls)
    else .ok (some (.obj []), ls)

/-- loadWeeklyData (utils.ts lines 73-88): parse the weekly blob inside
try/catch, yielding the empty array when the blob is absent, empty or
unparsable. -/
def loadWeeklyData (ls : LS) : JValue :=
  match ls.goodWorksWeekly with
  | none => .arr []
  | some b =>
    if serTruthy b then
      match parseSer b with
      | .ok v => v
      | .error _ => .arr []
    else .arr []

/-- The view of the current-day blob that export reads (utils.ts line 146):
the parsed value, or null when the blob is absent or empty; a parse error on
a nonempty unparsable blob propagates to the surrounding try. -/
def viewCurrent (ls : LS) : Except Unit JValue :=
  match ls.goodWorksData with
  | none => .ok .null
  | some b => if serTruthy b then parseSer b else .ok .null

/-- The view of the historical-log blob that export reads (utils.ts line
147): the parsed value, or the empty array when the blob is absent or
empty. -/
def viewWeekly (ls : LS) : Except Unit JValue :=
  match ls.goodWorksWeekly with
  | none => .ok (.arr [])
  | some b => if serTruthy b then parseSer b else .ok (.arr [])

/-- exportDataToJson (utils.ts lines 138-171), reduced to the snapshot it
serializes: `currentDay` is the parsed current-day blob or null, and
`archiveData` is the parsed weekly blob or the empty array; a parse error is
caught by the surrounding try and the export fails (returns false), modelled
as `Except.error`. The DOM download plumbing is external. -/
def exportSnapshot (exportDate : String) (ls : LS) : Except Unit JValue :=
  match viewCurrent ls with
  | .error e => .error e
  | .ok currentDay =>
    match viewWeekly ls with
    | .error e => .error e
    | .ok archiveData =>
      .ok (.obj [("version", .num 1), ("exportDate", .str exportDate),
                 ("currentDay", currentDay), ("archiveData", archiveData)])

/-- importDataFromJson (utils.ts lines 178-208): parse the input, reject
falsy or non-object roots and versions above 1 (all three by a caught throw,
so the function returns false with storage untouched); then write the
snapshot's `currentDay` back when truthy and its `archiveData` back when it
is an array, and return true. -/
def importDataFromJson (input : Ser) (ls : LS) : Bool × LS :=
  match parseSer input with
  | .error _ => (false, ls)
  | .ok parsedData =>
    if !jsTruthy parsedData || !jsTypeofObject parsedData then (false, ls)
    else
      let vfield : Option JValue :=
        match parsedData with
        | .obj fields => lookupField fields "version"
        | _ => none
      let version : JValue :=
        match vfield with
        | some v => if jsTruthy v then v else .num 1
        | none => .num 1
      if jsGtOne version then (false, ls)
      else
        let cur : Option JValue :=
          match parsedData with
          | .obj fields => lookupField fields "currentDay"
          | _ => none
        let ls1 : LS :=
          match cur with
          | some v => if jsTruthy v then { ls with goodWorksData := some (.jval v) } else ls
          | none => ls
        let arch : Option JValue :=
          match parsedData with
          | .obj fields => lookupField fields "archiveData"
          | _ => none
        let ls2 : LS :=
          match arch with
          | some (.arr l) => { ls1 with goodWorksWeekly := some (.jval (.arr l)) }
          | _ => ls1
        (true, ls2)

/-- A well-formed category record as the app itself writes it
(`CategoryData` in storage.ts). -/
structure CategoryData where
  time : Int
  color : String
deriving Repr, DecidableEq

/-- A well-formed day record as the app itself writes it (`DayData` in
storage.ts). -/
structure DayData where
  date : String
  categories : List (String × CategoryData)
deriving Repr, DecidableEq

/-- The JSON encoding of a category record. -/
def encodeCat (c : CategoryData) : JValue :=
  .obj [("time", .num c.time), ("color", .str c.color)]

/-- The JSON encoding of a day record, as `JSON.stringify` lays it out. -/
def encodeDay (d : DayData) : JValue :=
  .obj [("date", .str d.date),
        ("categories", .obj (d.categories.map (fun p => (p.1, encodeCat p.2))))]

/-- Whether some category of a structured day record has positive time. -/
def hasActivity (d : DayData) : Bool :=
  d.categories.any (fun p => decide (p.2.time > 0))

/-- Total seconds across a structured day record. -/
def totalTime (d : DayData) : Int :=
  (d.categories.map (fun p => p.2.time)).sum

theorem anyTimeGt_encode (l : List (String × CategoryData)) :
    anyTimeGt (l.map (fun p => encodeCat p.2)) =
      .ok (l.any (fun p => decide (p.2.time > 0))) := by
  induction l with
  | nil => rfl
  | cons p rest ih =>
    by_cases h : p.2.time > 0
    · simp [anyTimeGt, encodeCat, jsField, lookupField, jsGtZero, jsNum, h,
            Bind.bind, Except.bind, List.any_cons]
    · simp only [anyTimeGt, encodeCat, jsField, lookupField, jsGtZero, jsNum, h,
                 Bind.bind, Except.bind, List.any_cons, List.map_cons]
      simp only [decide_eq_true_eq, h, if_false, ite_false, decide_False]
      simp [h, ih]
      exact ih

theorem hasActivityJ_encode (d : DayData) :
    hasActivityJ (encodeDay d) = .ok (hasActivity d) := by
  have step : hasActivityJ (encodeDay d) =
      anyTimeGt ((d.categories.map (fun p => (p.1, encodeCat p.2))).map (fun p => p.2)) := rfl
  rw [step, List.map_map]
  have hc : ((fun (p : String × JValue) => p.2) ∘
      (fun (p : String × CategoryData) => (p.1, encodeCat p.2))) =
      fun p => encodeCat p.2 := rfl
  rw [hc, anyTimeGt_encode]
  rfl

/-- A category entry as a JavaScript object: either field may be undefined
(`editCategory` can create an entry whose `time` field is undefined, see
below), and `undefined + n` is NaN, modelled by `none` being absorbing. -/
structure JSCat where
  time : Option Int
  color : Option String
deriving Repr, DecidableEq

/-- The categories record of the hook, as an insertion-ordered string map
(JavaScript objects preserve insertion order; the hook never creates
duplicate keys). -/
abbrev CatStore := List (String × JSCat)

/-- Lookup `categories[name]`, `none` standing for undefined. -/
def lookupCat : CatStore → String → Option JSCat
  | [], _ => none
  | (k, c) :: rest, name => if k = name then some c else lookupCat rest name

/-- JavaScript `updated[name] = v`: overwrite in place when the key exists,
append at the end otherwise. -/
def setCat : CatStore → String → JSCat → CatStore
  | [], name, v => [(name, v)]
  | (k, c) :: rest, name, v =>
    if k = name then (k, v) :: rest else (k, c) :: setCat rest name v

/-- JavaScript `delete updated[name]`. -/
def eraseCat : CatStore → String → CatStore
  | [], _ => []
  | (k, c) :: rest, name => if k = name then rest else (k, c) :: eraseCat rest name

/-- The stopwatch interval callback installed by startCategory
(useGoodWorks.ts lines 90-111): `updatedTime = prev[name].time + 1` and the
entry is rewritten with that time. Reading `.time` of an absent entry is a
TypeError. The callback takes no clock input whatsoever: it adds exactly 1
per delivered callback. -/
def stopwatchTick (name : String) (prev : CatStore) : Except Unit CatStore :=
  match lookupCat prev name with
  | .none => .error ()
  | .some c =>
    let updatedTime := c.time.map (fun t => t + 1)
    .ok (setCat prev name { c with time := updatedTime })

/-- Math.floor of a millisecond count divided by 1000 (`Int.fdiv` rounds
toward negative infinity like `Math.floor`). -/
def floorDiv1000 (x : Int) : Int := x.fdiv 1000

/-- Math.ceil of a millisecond count divided by 1000. -/
def ceilDiv1000 (x : Int) : Int := -((-x).fdiv 1000)

/-- The mutable state touched by the countdown interval callback of
startTimer: the categories record, the active-category state, whether the
interval is still installed, the callback's captured `elapsedIntervals`
counter, and how many times the completion block (sendNotification plus
playRingtone) has run. -/
structure TimerRun where
  categories : CatStore
  activeCategory : Option String
  intervalLive : Bool
  elapsedIntervals : Int
  completionSignals : Nat
deriving Repr, DecidableEq

/-- The crediting half of the countdown interval callback (useGoodWorks.ts
lines 307-340): credit `expectedElapsed - elapsedIntervals` whole seconds
when that is positive and `remaining > 0`; reading `.time` of an absent
entry is a TypeError. Background-notification updates are external side
effects and are not modelled. -/
def timerCredit (name : String) (startTime endTime : Int) (now : Int)
    (s : TimerRun) : Except Unit TimerRun :=
  let totalElapsed := now - startTime
  let remaining := max 0 (ceilDiv1000 (endTime - now))
  let expectedElapsed := floorDiv1000 totalElapsed
  let increment := expectedElapsed - s.elapsedIntervals
  if increment > 0 ∧ remaining > 0 then
    match lookupCat s.categories name with
    | .none => .error ()
    | .some c =>
      .ok { s with
            elapsedIntervals := expectedElapsed,
            categories :=
              setCat s.categories name { c with time := c.time.map (fun t => t + increment) } }
  else .ok s

/-- The completion half of the countdown interval callback (useGoodWorks.ts
lines 342-362): on `now >= endTime` clear the interval, reset the active
category and run the completion block (sendNotification and playRingtone). -/
def timerComplete (endTime now : Int) (s1 : TimerRun) : TimerRun :=
  if now ≥ endTime then
    { s1 with
      intervalLive := false,
      activeCategory := none,
      completionSignals := s1.completionSignals + 1 }
  else s1

/-- One execution of the countdown interval callback (useGoodWorks.ts lines
306-363) at wall-clock `now`: the crediting block followed by the
completion check. -/
def timerTickStep (name : String) (startTime endTime : Int) (now : Int)
    (s : TimerRun) : Except Unit TimerRun :=
  (timerCredit name startTime endTime now s).map (timerComplete endTime now)

/-- Run the countdown interval callback at each wall-clock instant of
`ticks` in order; once `clearInterval` has run the callback never fires
again. -/
def runTimer (name : String) (startTime endTime : Int) :
    List Int → TimerRun → Except Unit TimerRun
  | [], s => .ok s
  | now :: rest, s =>
    if s.intervalLive then
      match timerTickStep name startTime endTime now s with
      | .error e => .error e
      | .ok s' => runTimer name startTime endTime rest s'
    else .ok s

/-- The state right after `startTimer(name, seconds)` returns (useGoodWorks
lines 239-306): any previous session stopped, `name` active, a fresh
interval installed, `elapsedIntervals = 0`, no completion signal yet. -/
def startTimerState (name : String) (categories : CatStore) : TimerRun :=
  { categories := categories
    activeCategory := some name
    intervalLive := true
    elapsedIntervals := 0
    completionSignals := 0 }

/-- The tick schedule of an unthrottled browser for the source's 100 ms
interval: instants `startTime + 100 * k` for `k = 1 .. 10 * d`. -/
def ticks100 (startTime : Int) (d : Nat) : List Int :=
  (List.range (10 * d)).map (fun k : Nat => startTime + 100 * ((k : Int) + 1))

/-- A once-per-second callback delivery schedule: instants
`startTime + 1000 * k` for `k = 1 .. d`. -/
def secondTicks (startTime : Int) (d : Nat) : List Int :=
  (List.range d).map (fun k : Nat => startTime + 1000 * ((k : Int) + 1))

/-- The credited time of a timer run for a category, undefined when the run
faulted or the category is gone. -/
def creditedTime (r : Except Unit TimerRun) (name : String) : Option Int :=
  match r with
  | .error _ => none
  | .ok s => (lookupCat s.categories name).bind (fun c => c.time)

/-- The result triple of editCategory: the returned boolean, the categories
record and the active-category state afterwards. -/
structure EditResult where
  ok : Bool
  categories : CatStore
  activeCategory : Option String
deriving Repr, DecidableEq

/-- editCategory (useGoodWorks.ts lines 398-435): reject blank names; reject
a changed name that already exists; otherwise spread the old entry (spreading
an absent entry yields the empty object — the function never checks that
`oldName` exists), set the color, and either rewrite in place (same name) or
delete the old key, insert under the new key and repoint the active category
if it was the old name. -/
def editCategory (oldName newName newColor : String)
    (categories : CatStore) (activeCategory : Option String) : EditResult :=
  if jsTrim oldName = "" ∨ jsTrim newName = "" then
    { ok := false, categories := categories, activeCategory := activeCategory }
  else if oldName ≠ newName ∧ (lookupCat categories newName).isSome then
    { ok := false, categories := categories, activeCategory := activeCategory }
  else
    let categoryData := (lookupCat categories oldName).getD { time := none, color := none }
    let categoryData := { categoryData with color := some newColor }
    if oldName ≠ newName then
      { ok := true
        categories := setCat (eraseCat categories oldName) newName categoryData
        activeCategory :=
          if activeCategory = some oldName then some newName else activeCategory }
    else
      { ok := true
        categories := setCat categories oldName categoryData
        activeCategory := activeCategory }

/-- Calls covered by the single-active-session claim. `startTimer` carries
the clock reading and duration it is called with. -/
inductive SOp where
  | startCategory (name : String)
  | startTimer (name : String) (now : Int) (seconds : Int)
  | stopActive
deriving Repr, DecidableEq

/-- Session bookkeeping of the hook: the identifiers of `setInterval`
callbacks not yet cleared (with their target categories), the hook's
`intervalRef`, `activeCategory` and `timerEndRef`, and the next fresh
interval identifier the browser will hand out. The live-interval list is
what makes "one active session" a real invariant: an interval the hook lost
track of would keep ticking. -/
structure SMState where
  liveIntervals : List (Nat × String)
  intervalRef : Option Nat
  activeCategory : Option String
  timerEnd : Option Int
  nextId : Nat
deriving Repr, DecidableEq

/-- Model of `window.clearInterval(id)`: the interval with that identifier stops
firing. -/
def clearIntervalId (l : List (Nat × String)) (i : Nat) : List (Nat × String) :=
  l.filter (fun p => p.1 ≠ i)

/-- stopActive (useGoodWorks.ts lines 44-60): clear the referenced interval
if any, null the reference, the active category and the timer end. -/
def smStopActive (s : SMState) : SMState :=
  let live :=
    match s.intervalRef with
    | some i => clearIntervalId s.liveIntervals i
    | none => s.liveIntervals
  { s with liveIntervals := live, intervalRef := none,
           activeCategory := none, timerEnd := none }

/-- startCategory (useGoodWorks.ts lines 62-112): stopActive, set the active
category, install a fresh interval and store its identifier. -/
def smStartCategory (name : String) (s : SMState) : SMState :=
  let s1 := smStopActive s
  { s1 with activeCategory := some name
            liveIntervals := s1.liveIntervals ++ [(s1.nextId, name)]
            intervalRef := some s1.nextId
            nextId := s1.nextId + 1 }

/-- startTimer (useGoodWorks.ts lines 239-363): stopActive, set the active
category and the timer end, install a fresh interval and store its
identifier. -/
def smStartTimer (name : String) (now seconds : Int) (s : SMState) : SMState :=
  let s1 := smStopActive s
  { s1 with activeCategory := some name
            timerEnd := some (now + seconds * 1000)
            liveIntervals := s1.liveIntervals ++ [(s1.nextId, name)]
            intervalRef := some s1.nextId
            nextId := s1.nextId + 1 }

/-- Apply one call. -/
def smStep (s : SMState) : SOp → SMState
  | .startCategory name => smStartCategory name s
  | .startTimer name now seconds => smStartTimer name now seconds s
  | .stopActive => smStopActive s

/-- Run a sequence of calls. -/
def smRun (ops : List SOp) (s : SMState) : SMState :=
  ops.foldl smStep s

/-- The hook's initial state: no interval, nothing active. -/
def smInit : SMState :=
  { liveIntervals := [], intervalRef := none, activeCategory := none,
    timerEnd := none, nextId := 0 }

/-- The inductive session invariant: every live interval is the one the
hook's `intervalRef` names, and there is at most one. -/
def smInv (s : SMState) : Prop :=
  (∀ p ∈ s.liveIntervals, s.intervalRef = some p.1) ∧ s.liveIntervals.length ≤ 1

theorem smInv_init : smInv smInit := by
  constructor
  · intro p hp; simp [smInit] at hp
  · simp [smInit]

theorem smStopActive_liveIntervals (s : SMState) (h : smInv s) :
    (smStopActive s).liveIntervals = [] := by
  obtain ⟨href, _⟩ := h
  cases hr : s.intervalRef with
  | none =>
    simp only [smStopActive, hr]
    cases hl : s.liveIntervals with
    | nil => rfl
    | cons p rest =>
      exact absurd (href p (by simp [hl])) (by simp [hr])
  | some i =>
    simp only [smStopActive, hr, clearIntervalId]
    rw [List.filter_eq_nil_iff]
    intro p hp
    have := href p hp
    rw [hr] at this
    simp at this ⊢
    omega

theorem smInv_step (s : SMState) (op : SOp) (h : smInv s) : smInv (smStep s op) := by
  have hstop : (smStopActive s).liveIntervals = [] := smStopActive_liveIntervals s h
  cases op with
  | startCategory name =>
    constructor
    · intro p hp
      simp only [smStep, smStartCategory, hstop, List.nil_append,
                 List.mem_singleton] at hp ⊢
      rw [hp]
    · simp [smStep, smStartCategory, hstop]
  | startTimer name now seconds =>
    constructor
    · intro p hp
      simp only [smStep, smStartTimer, hstop, List.nil_append,
                 List.mem_singleton] at hp ⊢
      rw [hp]
    · simp [smStep, smStartTimer, hstop]
  | stopActive =>
    constructor
    · intro p hp
      rw [show smStep s .stopActive = smStopActive s from rfl, hstop] at hp
      simp at hp
    · rw [show smStep s .stopActive = smStopActive s from rfl, hstop]
      simp

theorem smInv_run (ops : List SOp) : smInv (smRun ops smInit) := by
  suffices h : ∀ s, smInv s → smInv (smRun ops s) from h smInit smInv_init
  induction ops with
  | nil => intro s hs; exact hs
  | cons op rest ih =>
    intro s hs
    exact ih (smStep s op) (smInv_step s op hs)

theorem smRun_append_one (ops : List SOp) (op : SOp) :
    smRun (ops ++ [op]) smInit = smStep (smRun ops smInit) op := by
  simp [smRun, List.foldl_append]

/-- C3: for every sequence of startCategory, startTimer and stopActive
calls, at most one interval is live after any call (at most one session is
active), and a start call of either kind — startCategory or startTimer —
stops the prior session before installing the new one, leaving exactly the
new session live and active afterward. -/
theorem c3_at_most_one_session (ops : List SOp) (c : String) (now seconds : Int) :
    (smRun ops smInit).liveIntervals.length ≤ 1 ∧
    (smRun (ops ++ [SOp.startCategory c]) smInit).liveIntervals.map Prod.snd = [c] ∧
    (smRun (ops ++ [SOp.startCategory c]) smInit).activeCategory = some c ∧
    (smRun (ops ++ [SOp.startTimer c now seconds]) smInit).liveIntervals.map Prod.snd = [c] ∧
    (smRun (ops ++ [SOp.startTimer c now seconds]) smInit).activeCategory = some c := by
  have hinv := smInv_run ops
  have hstop : (smStopActive (smRun ops smInit)).liveIntervals = [] :=
    smStopActive_liveIntervals _ hinv
  refine ⟨hinv.2, ?_, ?_, ?_, ?_⟩
  · rw [smRun_append_one]
    simp [smStep, smStartCategory, hstop]
  · rw [smRun_append_one]
    simp [smStep, smStartCategory]
  · rw [smRun_append_one]
    simp [smStep, smStartTimer, hstop]
  · rw [smRun_append_one]
    simp [smStep, smStartTimer]

/-- C8 (the code, evaluated at the failing input): a tick whose target
category is absent from the store is not dropped safely; both the stopwatch
callback and the countdown callback dereference the missing entry
(`prev[name].time`) and fault with a TypeError instead of no-oping. -/
theorem c8_tick_on_absent_category_faults :
    stopwatchTick "Work" [("Reading", { time := some 3, color := some "#4C8BF5" })] =
      .error () ∧
    timerTickStep "Work" 0 10000 1000
      { categories := [("Reading", { time := some 3, color := some "#4C8BF5" })],
        activeCategory := some "Work", intervalLive := true,
        elapsedIntervals := 0, completionSignals := 0 } = .error () := by
  constructor
  · rfl
  · rfl

theorem floorDiv1000_eq (x : Int) : floorDiv1000 x = x / 1000 :=
  Int.fdiv_eq_ediv x (by norm_num)

theorem ceilDiv1000_eq (x : Int) : ceilDiv1000 x = -(-x / 1000) := by
  unfold ceilDiv1000
  rw [Int.fdiv_eq_ediv _ (by norm_num)]

theorem runTimer_cons_live (name : String) (start endT now : Int) (rest : List Int)
    (s s' : TimerRun) (h : s.intervalLive = true)
    (hstep : timerTickStep name start endT now s = .ok s') :
    runTimer name start endT (now :: rest) s = runTimer name start endT rest s' := by
  simp only [runTimer, h, if_true, hstep]

/-- Evaluation of the crediting block when a whole second has elapsed beyond
`elapsedIntervals` and the deadline is strictly ahead. -/
theorem timerCredit_credits (name : String) (start endT now : Int) (s : TimerRun)
    (c : JSCat) (hlook : lookupCat s.categories name = some c)
    (hinc : s.elapsedIntervals < floorDiv1000 (now - start))
    (hlt : now < endT) :
    timerCredit name start endT now s =
      .ok { s with
            elapsedIntervals := floorDiv1000 (now - start),
            categories := setCat s.categories name
              { c with time :=
                  c.time.map (fun t => t + (floorDiv1000 (now - start) - s.elapsedIntervals)) } } := by
  have hrem : (0:Int) < max 0 (ceilDiv1000 (endT - now)) := by
    rw [ceilDiv1000_eq]
    omega
  unfold timerCredit
  rw [if_pos ⟨by omega, hrem⟩, hlook]

/-- Evaluation of the crediting block when it does nothing: either no new
whole second has elapsed or no time remains. -/
theorem timerCredit_skips (name : String) (start endT now : Int) (s : TimerRun)
    (hskip : ¬ (s.elapsedIntervals < floorDiv1000 (now - start) ∧ now < endT)) :
    timerCredit name start endT now s = .ok s := by
  have hnoinc : ¬ (floorDiv1000 (now - start) - s.elapsedIntervals > 0 ∧
      max 0 (ceilDiv1000 (endT - now)) > 0) := by
    rw [ceilDiv1000_eq]
    rw [not_and_or] at hskip
    rcases hskip with h | h
    · omega
    · omega
  unfold timerCredit
  rw [if_neg hnoinc]

/-- A countdown callback that credits time without reaching the deadline. -/
theorem timerTickStep_credit (name : String) (start endT now : Int) (s : TimerRun)
    (c : JSCat) (hlook : lookupCat s.categories name = some c)
    (hinc : s.elapsedIntervals < floorDiv1000 (now - start))
    (hlt : now < endT) :
    timerTickStep name start endT now s =
      .ok { s with
            elapsedIntervals := floorDiv1000 (now - start),
            categories := setCat s.categories name
              { c with time :=
                  c.time.map (fun t => t + (floorDiv1000 (now - start) - s.elapsedIntervals)) } } := by
  unfold timerTickStep
  rw [timerCredit_credits name start endT now s c hlook hinc hlt]
  simp only [Except.map]
  rw [timerComplete, if_neg (by omega : ¬ now ≥ endT)]

/-- A countdown callback that neither credits nor completes. -/
theorem timerTickStep_idle (name : String) (start endT now : Int) (s : TimerRun)
    (hskip : ¬ (s.elapsedIntervals < floorDiv1000 (now - start)))
    (hlt : now < endT) :
    timerTickStep name start endT now s = .ok s := by
  unfold timerTickStep
  rw [timerCredit_skips name start endT now s (by tauto)]
  simp only [Except.map]
  rw [timerComplete, if_neg (by omega : ¬ now ≥ endT)]

/-- A countdown callback at or past the deadline: `remaining` is 0 so no
time is credited; the interval is cleared, the session goes Idle and the
completion block runs once. -/
theorem timerTickStep_complete (name : String) (start endT now : Int) (s : TimerRun)
    (hge : now ≥ endT) :
    timerTickStep name start endT now s =
      .ok { s with
            intervalLive := false,
            activeCategory := none,
            completionSignals := s.completionSignals + 1 } := by
  unfold timerTickStep
  rw [timerCredit_skips name start endT now s (by omega)]
  simp only [Except.map]
  rw [timerComplete, if_pos hge]

/-- The countdown loop on a once-per-second schedule, generalized for
induction: from elapsed counter `j` and `n + 1` remaining per-second ticks
before a deadline `n + 1` seconds ahead, the run credits one second per tick
except the final one, then completes. -/
theorem c1_loop (n : Nat) : ∀ (j start T : Int) (name : String) (col : Option String),
    runTimer name start (start + 1000 * (j + (n : Int) + 1))
      ((List.range (n + 1)).map (fun k : Nat => start + 1000 * (j + (k : Int) + 1)))
      { categories := [(name, { time := some T, color := col })],
        activeCategory := some name, intervalLive := true,
        elapsedIntervals := j, completionSignals := 0 } =
    .ok { categories := [(name, { time := some (T + (n : Int)), color := col })],
          activeCategory := none, intervalLive := false,
          elapsedIntervals := j + (n : Int), completionSignals := 1 } := by
  induction n with
  | zero =>
    intro j start T name col
    rw [show List.range (0 + 1) = [0] from rfl, List.map_cons, List.map_nil]
    rw [runTimer_cons_live _ _ _ _ _ _
          { categories := [(name, { time := some T, color := col })],
            activeCategory := none, intervalLive := false,
            elapsedIntervals := j, completionSignals := 1 }
          rfl
          (timerTickStep_complete _ _ _ _ _ (by push_cast; omega))]
    rw [runTimer]
    push_cast
    norm_num
  | succ n ih =>
    intro j start T name col
    rw [List.range_succ_eq_map, List.map_cons, List.map_map]
    have harith : floorDiv1000 (start + 1000 * (j + ((0 : Nat) : Int) + 1) - start) = j + 1 := by
      rw [floorDiv1000_eq, show start + 1000 * (j + ((0 : Nat) : Int) + 1) - start =
            1000 * (j + 1) by push_cast; ring]
      omega
    have hstep := timerTickStep_credit name start (start + 1000 * (j + ((n + 1 : Nat) : Int) + 1))
        (start + 1000 * (j + ((0 : Nat) : Int) + 1))
        { categories := [(name, { time := some T, color := col })],
          activeCategory := some name, intervalLive := true,
          elapsedIntervals := j, completionSignals := 0 }
        { time := some T, color := col }
        (by simp [lookupCat])
        (by rw [harith]; exact lt_add_one j)
        (by push_cast; omega)
    rw [harith] at hstep
    have hset : setCat [(name, { time := some T, color := col })] name
        { time := (some T).map (fun t => t + (j + 1 - j)), color := col } =
        [(name, { time := some (T + 1), color := col })] := by
      have hmapv : (some T).map (fun t => t + (j + 1 - j)) = some (T + 1) := by
        simp
      rw [hmapv]
      simp [setCat]
    simp only at hstep
    rw [hset] at hstep
    rw [runTimer_cons_live _ _ _ _ _ _ _ rfl hstep]
    have hmap : (List.range (n + 1)).map
          ((fun k : Nat => start + 1000 * (j + (k : Int) + 1)) ∘ Nat.succ) =
        (List.range (n + 1)).map (fun k : Nat => start + 1000 * (j + 1 + (k : Int) + 1)) := by
      apply List.map_congr_left
      intro k _
      simp only [Function.comp_apply]
      push_cast
      ring
    rw [hmap]
    rw [show start + 1000 * (j + ((n + 1 : Nat) : Int) + 1) =
          start + 1000 * (j + 1 + (n : Int) + 1) by push_cast; ring]
    have hih := ih (j + 1) start (T + 1) name col
    rw [hih]
    rw [show T + 1 + (n : Int) = T + ((n + 1 : Nat) : Int) by push_cast; ring,
        show j + 1 + (n : Int) = j + ((n + 1 : Nat) : Int) by push_cast; ring]

/-- C1 counterexample: `startTimer("Work", 10)` with the source's own 100 ms
interval delivered unthrottled (ticks every 100 ms from t0). When the
countdown naturally completes, Work.time has been credited 9 seconds, not
10: the crediting guard `remaining > 0` is false during the final second, so
the claimed exact-D credit (and the spec scenario `Work.time == 10`) fails
even with no suspension at all. -/
theorem c1_counterexample :
    runTimer "Work" 0 10000 (ticks100 0 10)
      (startTimerState "Work" [("Work", { time := some 0, color := some "#9C27B0" })]) =
    .ok { categories := [("Work", { time := some 9, color := some "#9C27B0" })],
          activeCategory := none, intervalLive := false,
          elapsedIntervals := 9, completionSignals := 1 } ∧
    some (9 : Int) ≠ some (10 : Int) := by
  constructor
  · rfl
  · decide

/-- C1 amended: for a countdown of duration `D >= 1` seconds run to natural
completion (callbacks delivered once per second), the session transitions to
Idle, the completion signal is requested exactly once, and the time credited
to the category is `D - 1` seconds — within the claim's 1-second tolerance
of `D`, but never exactly `D`. -/
theorem c1_amended (D : Nat) (hD : 1 ≤ D) (start T : Int) (name : String)
    (col : Option String) :
    runTimer name start (start + 1000 * (D : Int)) (secondTicks start D)
      (startTimerState name [(name, { time := some T, color := col })]) =
    .ok { categories := [(name, { time := some (T + (D : Int) - 1), color := col })],
          activeCategory := none, intervalLive := false,
          elapsedIntervals := (D : Int) - 1, completionSignals := 1 } := by
  obtain ⟨n, rfl⟩ : ∃ n, D = n + 1 := ⟨D - 1, by omega⟩
  have h := c1_loop n 0 start T name col
  have hl : (List.range (n + 1)).map (fun k : Nat => start + 1000 * ((0 : Int) + (k : Int) + 1)) =
      (List.range (n + 1)).map (fun k : Nat => start + 1000 * ((k : Int) + 1)) := by
    apply List.map_congr_left
    intro k _
    ring
  rw [hl] at h
  rw [show start + 1000 * ((0 : Int) + (n : Int) + 1) =
        start + 1000 * (((n + 1 : Nat)) : Int) by push_cast; ring] at h
  rw [show T + (n : Int) = T + (((n + 1 : Nat)) : Int) - 1 by push_cast; ring] at h
  rw [show (0 : Int) + (n : Int) = (((n + 1 : Nat)) : Int) - 1 by push_cast; ring] at h
  rw [secondTicks, startTimerState]
  exact h

theorem c1_amended_witness :
    runTimer "Work" 0 10000 (secondTicks 0 10)
      (startTimerState "Work" [("Work", { time := some 0, color := some "#9C27B0" })]) =
    .ok { categories := [("Work", { time := some 9, color := some "#9C27B0" })],
          activeCategory := none, intervalLive := false,
          elapsedIntervals := 9, completionSignals := 1 } := by
  have h := c1_amended 10 (by norm_num) 0 0 "Work" (some "#9C27B0")
  norm_num at h
  exact h

/-- C2 counterexample: a stopwatch session on Reading with a callback that
lands 5 whole wall-clock seconds after the previous tick. The claimed
policy requires the tick to add 5; the stopwatch callback — which takes no
clock input at all — adds exactly 1. -/
theorem c2_counterexample :
    stopwatchTick "Reading" [("Reading", { time := some 0, color := some "#4C8BF5" })] =
      .ok [("Reading", { time := some 1, color := some "#4C8BF5" })] ∧
    some (1 : Int) ≠ some (5 : Int) := by
  constructor
  · rfl
  · decide

/-- The countdown loop never loses or double-counts time while the deadline
is ahead: over any nondecreasing in-window schedule the elapsed counter
tracks `floor((lastTick - start) / 1000)` exactly, and the category carries
`T` plus that many seconds. -/
theorem c2_run (name : String) (col : Option String) (start endT T : Int) :
    ∀ (ticks : List Int) (p : Int), List.Chain' (· ≤ ·) (p :: ticks) →
    (∀ t ∈ ticks, t < endT) → start ≤ p →
    runTimer name start endT ticks
      { categories := [(name, { time := some (T + floorDiv1000 (p - start)), color := col })],
        activeCategory := some name, intervalLive := true,
        elapsedIntervals := floorDiv1000 (p - start), completionSignals := 0 } =
    .ok { categories :=
            [(name, { time := some (T + floorDiv1000 (ticks.getLastD p - start)), color := col })],
          activeCategory := some name, intervalLive := true,
          elapsedIntervals := floorDiv1000 (ticks.getLastD p - start),
          completionSignals := 0 } := by
  intro ticks
  induction ticks with
  | nil =>
    intro p _ _ _
    rfl
  | cons t rest ih =>
    intro p hchain hwin hsp
    have hpt : p ≤ t := (List.chain'_cons.mp hchain).1
    have hchain' : List.Chain' (· ≤ ·) (t :: rest) := (List.chain'_cons.mp hchain).2
    have htwin : t < endT := hwin t (by simp)
    have hmono : floorDiv1000 (p - start) ≤ floorDiv1000 (t - start) := by
      rw [floorDiv1000_eq, floorDiv1000_eq]
      omega
    rw [List.getLastD_cons]
    rcases lt_or_eq_of_le hmono with hlt | heq
    · have hstep := timerTickStep_credit name start endT t
          { categories := [(name, { time := some (T + floorDiv1000 (p - start)), color := col })],
            activeCategory := some name, intervalLive := true,
            elapsedIntervals := floorDiv1000 (p - start), completionSignals := 0 }
          { time := some (T + floorDiv1000 (p - start)), color := col }
          (by simp [lookupCat]) hlt htwin
      simp only at hstep
      have hv : (some (T + floorDiv1000 (p - start))).map
          (fun x => x + (floorDiv1000 (t - start) - floorDiv1000 (p - start))) =
          some (T + floorDiv1000 (t - start)) := by
        simp only [Option.map_some']
        exact congrArg some (by ring)
      rw [hv] at hstep
      have hsetv : setCat [(name, { time := some (T + floorDiv1000 (p - start)), color := col })]
          name { time := some (T + floorDiv1000 (t - start)), color := col } =
          [(name, { time := some (T + floorDiv1000 (t - start)), color := col })] := by
        simp [setCat]
      rw [hsetv] at hstep
      rw [runTimer_cons_live _ _ _ _ _ _ _ rfl hstep]
      exact ih t hchain' (fun x hx => hwin x (by simp [hx])) (le_trans hsp hpt)
    · have hstep := timerTickStep_idle name start endT t
          { categories := [(name, { time := some (T + floorDiv1000 (p - start)), color := col })],
            activeCategory := some name, intervalLive := true,
            elapsedIntervals := floorDiv1000 (p - start), completionSignals := 0 }
          (by simp only []; omega) htwin
      rw [runTimer_cons_live _ _ _ _ _ _ _ rfl hstep]
      rw [heq]
      exact ih t hchain' (fun x hx => hwin x (by simp [hx])) (le_trans hsp hpt)

theorem slice365_getLast (l : List JValue) (x : JValue) :
    (slice365 (l ++ [x])).getLast? = some x := by
  unfold slice365
  by_cases h : (l ++ [x]).length > 365
  · rw [if_pos h]
    have hlen : (l ++ [x]).length - 365 ≤ l.length := by
      simp [List.length_append]
    rw [List.drop_append_of_le_length hlen, List.getLast?_concat]
  · rw [if_neg h, List.getLast?_concat]

theorem slice365_length (l : List JValue) :
    (slice365 l).length = min l.length 365 := by
  unfold slice365
  by_cases h : l.length > 365
  · rw [if_pos h, List.length_drop]
    omega
  · rw [if_neg h]
    omega

theorem hasActivity_false_total (d : DayData)
    (hnn : ∀ p ∈ d.categories, 0 ≤ p.2.time)
    (hact : hasActivity d = false) : totalTime d = 0 := by
  unfold totalTime
  apply List.sum_eq_zero
  intro x hx
  rw [List.mem_map] at hx
  obtain ⟨p, hp, rfl⟩ := hx
  have h1 := hnn p hp
  unfold hasActivity at hact
  rw [List.any_eq_false] at hact
  have h2 := hact p hp
  simp at h2
  omega

theorem hasActivity_of_total_pos (d : DayData)
    (hnn : ∀ p ∈ d.categories, 0 ≤ p.2.time)
    (h : 0 < totalTime d) : hasActivity d = true := by
  cases hact : hasActivity d with
  | true => rfl
  | false =>
    rw [hasActivity_false_total d hnn hact] at h
    exact absurd h (by norm_num)

theorem archiveDay_encode_true (d : DayData) (ls : LS) (log : List JValue)
    (hW : weeklyInput ls = .arr log) (h : hasActivity d = true) :
    archiveDay (encodeDay d) ls =
      .ok { goodWorksData := none,
            goodWorksWeekly := some (.jval (.arr (slice365 (log ++ [encodeDay d])))) } := by
  simp only [archiveDay, hasActivityJ_encode, h, hW, jsPush, if_true]

theorem archiveDay_encode_false (d : DayData) (ls : LS)
    (h : hasActivity d = false) :
    archiveDay (encodeDay d) ls = .ok { ls with goodWorksData := none } := by
  simp only [archiveDay, hasActivityJ_encode, h, if_false, Bool.false_eq_true]

theorem jsField_encodeDay_date (d : DayData) :
    jsField (encodeDay d) "date" = .ok (some (.str d.date)) := rfl

/-- C4: the archive operation appends the day to the historical log if and
only if some category has positive time, and clears the current-day blob
unconditionally in both cases; consequently a load with a persisted record
dated other than today (in particular yesterday) and positive total time
archives that record as the log's new tail and returns an empty store, while
a zero-total record leaves the log untouched (and still clears the blob). -/
theorem c4_archive_and_rollover (d : DayData) (ls : LS) (log : List JValue)
    (today : String) (hW : weeklyInput ls = .arr log)
    (hnn : ∀ p ∈ d.categories, 0 ≤ p.2.time) :
    (hasActivity d = true →
      archiveDay (encodeDay d) ls =
        .ok { goodWorksData := none,
              goodWorksWeekly := some (.jval (.arr (slice365 (log ++ [encodeDay d])))) }) ∧
    (hasActivity d = false →
      archiveDay (encodeDay d) ls = .ok { ls with goodWorksData := none }) ∧
    (d.date ≠ today → 0 < totalTime d →
      loadTodayData today { ls with goodWorksData := some (.jval (encodeDay d)) } =
        .ok (some (.obj []),
             { goodWorksData := none,
               goodWorksWeekly := some (.jval (.arr (slice365 (log ++ [encodeDay d])))) }) ∧
      (slice365 (log ++ [encodeDay d])).getLast? = some (encodeDay d)) ∧
    (d.date ≠ today → totalTime d = 0 →
      loadTodayData today { ls with goodWorksData := some (.jval (encodeDay d)) } =
        .ok (some (.obj []),
             { goodWorksData := none, goodWorksWeekly := ls.goodWorksWeekly })) := by
  refine ⟨fun h => archiveDay_encode_true d ls log hW h,
          fun h => archiveDay_encode_false d ls h, ?_, ?_⟩
  · intro hne hpos
    have hact := hasActivity_of_total_pos d hnn hpos
    have hWx : weeklyInput { ls with goodWorksData := some (.jval (encodeDay d)) } =
        .arr log := hW
    have harch := archiveDay_encode_true d
        { ls with goodWorksData := some (.jval (encodeDay d)) } log hWx hact
    refine ⟨?_, slice365_getLast log (encodeDay d)⟩
    simp only [loadTodayData, serTruthy, parseSer, jsField_encodeDay_date, harch,
               jsStrictNeqStr, hne, if_true, decide_True]
    simp [hne]
  · intro hne hzero
    have hact : hasActivity d = false := by
      cases hact : hasActivity d with
      | false => rfl
      | true =>
        exfalso
        unfold hasActivity at hact
        rw [List.any_eq_true] at hact
        obtain ⟨p, hp, hpt⟩ := hact
        simp at hpt
        have hle : p.2.time ≤ totalTime d := by
          unfold totalTime
          have : p.2.time ∈ d.categories.map (fun q => q.2.time) :=
            List.mem_map.mpr ⟨p, hp, rfl⟩
          exact List.single_le_sum (fun x hx => by
            rw [List.mem_map] at hx
            obtain ⟨q, hq, rfl⟩ := hx
            exact hnn q hq) _ this
        omega
    have harch := archiveDay_encode_false d
        { ls with goodWorksData := some (.jval (encodeDay d)) } hact
    simp only [loadTodayData, serTruthy, parseSer, jsField_encodeDay_date, harch,
               jsStrictNeqStr, hne, if_true, decide_True]
    simp [hne]

theorem c4_witness :
    (hasActivity ⟨"Fri May 09 2025", [("Work", ⟨7200, "#9C27B0"⟩)]⟩ = true →
      archiveDay (encodeDay ⟨"Fri May 09 2025", [("Work", ⟨7200, "#9C27B0"⟩)]⟩)
          { goodWorksData := none, goodWorksWeekly := none } =
        .ok { goodWorksData := none,
              goodWorksWeekly := some (.jval (.arr (slice365
                ([] ++ [encodeDay ⟨"Fri May 09 2025", [("Work", ⟨7200, "#9C27B0"⟩)]⟩])))) }) ∧
    (hasActivity ⟨"Fri May 09 2025", [("Work", ⟨7200, "#9C27B0"⟩)]⟩ = false →
      archiveDay (encodeDay ⟨"Fri May 09 2025", [("Work", ⟨7200, "#9C27B0"⟩)]⟩)
          { goodWorksData := none, goodWorksWeekly := none } =
        .ok { goodWorksData := none, goodWorksWeekly := none }) ∧
    ("Fri May 09 2025" ≠ "Sat May 10 2025" →
      0 < totalTime ⟨"Fri May 09 2025", [("Work", ⟨7200, "#9C27B0"⟩)]⟩ →
      loadTodayData "Sat May 10 2025"
          { goodWorksData :=
              some (.jval (encodeDay ⟨"Fri May 09 2025", [("Work", ⟨7200, "#9C27B0"⟩)]⟩)),
            goodWorksWeekly := none } =
        .ok (some (.obj []),
             { goodWorksData := none,
               goodWorksWeekly := some (.jval (.arr (slice365
                 ([] ++ [encodeDay ⟨"Fri May 09 2025", [("Work", ⟨7200, "#9C27B0"⟩)]⟩])))) }) ∧
      (slice365 ([] ++ [encodeDay ⟨"Fri May 09 2025", [("Work", ⟨7200, "#9C27B0"⟩)]⟩])).getLast? =
        some (encodeDay ⟨"Fri May 09 2025", [("Work", ⟨7200, "#9C27B0"⟩)]⟩)) ∧
    ("Fri May 09 2025" ≠ "Sat May 10 2025" →
      totalTime ⟨"Fri May 09 2025", [("Work", ⟨7200, "#9C27B0"⟩)]⟩ = 0 →
      loadTodayData "Sat May 10 2025"
          { goodWorksData :=
              some (.jval (encodeDay ⟨"Fri May 09 2025", [("Work", ⟨7200, "#9C27B0"⟩)]⟩)),
            goodWorksWeekly := none } =
        .ok (some (.obj []), { goodWorksData := none, goodWorksWeekly := none })) :=
  c4_archive_and_rollover ⟨"Fri May 09 2025", [("Work", ⟨7200, "#9C27B0"⟩)]⟩
    { goodWorksData := none, goodWorksWeekly := none } [] "Sat May 10 2025" rfl
    (by decide)

/-- C5: archiving a day with activity appends it at the tail of the log;
below the 365-entry cap nothing is evicted, a log already at 365 entries
loses exactly its oldest (head) entry so the result is again exactly 365
entries, and a log within the cap stays within the cap. -/
theorem c5_log_cap (ls : LS) (log : List JValue) (d : DayData)
    (hW : weeklyInput ls = .arr log) (hact : hasActivity d = true) :
    archiveDay (encodeDay d) ls =
      .ok { goodWorksData := none,
            goodWorksWeekly := some (.jval (.arr (slice365 (log ++ [encodeDay d])))) } ∧
    (log.length < 365 → slice365 (log ++ [encodeDay d]) = log ++ [encodeDay d]) ∧
    (log.length = 365 →
      slice365 (log ++ [encodeDay d]) = log.drop 1 ++ [encodeDay d] ∧
      (slice365 (log ++ [encodeDay d])).length = 365) ∧
    (log.length ≤ 365 → (slice365 (log ++ [encodeDay d])).length ≤ 365) := by
  refine ⟨archiveDay_encode_true d ls log hW hact, ?_, ?_, ?_⟩
  · intro hlt
    unfold slice365
    rw [if_neg (by simp [List.length_append]; omega)]
  · intro heq
    constructor
    · unfold slice365
      rw [if_pos (by simp [List.length_append]; omega)]
      rw [show (log ++ [encodeDay d]).length - 365 = 1 by simp [List.length_append]; omega]
      rw [List.drop_append_of_le_length (by omega)]
    · rw [slice365_length]
      simp [List.length_append]
      omega
  · intro hle
    rw [slice365_length]
    omega

theorem c5_witness :
    archiveDay (encodeDay ⟨"Fri May 09 2025", [("Read", ⟨60, "#4C8BF5"⟩)]⟩)
        { goodWorksData := none, goodWorksWeekly := some (.jval (.arr [])) } =
      .ok { goodWorksData := none,
            goodWorksWeekly := some (.jval (.arr (slice365
              ([] ++ [encodeDay ⟨"Fri May 09 2025", [("Read", ⟨60, "#4C8BF5"⟩)]⟩])))) } ∧
    ([] : List JValue).length < 365 := by
  refine ⟨(c5_log_cap { goodWorksData := none, goodWorksWeekly := some (.jval (.arr [])) }
      [] ⟨"Fri May 09 2025", [("Read", ⟨60, "#4C8BF5"⟩)]⟩ rfl (by decide)).1, by norm_num⟩

/-- C6 counterexample: loading the current-day blob does propagate a parse
error — `loadTodayData` calls `JSON.parse` with no error handling, so a
corrupted (nonempty, unparsable) current-day blob throws instead of
degrading to an empty store. -/
theorem c6_counterexample :
    loadTodayData "Sat May 10 2025"
      { goodWorksData := some (.garbage "corrupt###"), goodWorksWeekly := none } =
      .error () := rfl

/-- C6 amended: only the historical-log loader is protected: loadWeeklyData
returns the empty list on an absent or corrupted weekly blob (its parse sits
in try/catch), while loadTodayData propagates the parse error whenever the
current-day blob is nonempty and unparsable. -/
theorem c6_amended :
    (∀ (cd : Option Ser) (s : String),
        loadWeeklyData { goodWorksData := cd, goodWorksWeekly := some (.garbage s) } =
          .arr []) ∧
    (∀ cd : Option Ser,
        loadWeeklyData { goodWorksData := cd, goodWorksWeekly := none } = .arr []) ∧
    (∀ s : String, s ≠ "" → ∀ (today : String) (wk : Option Ser),
        loadTodayData today { goodWorksData := some (.garbage s), goodWorksWeekly := wk } =
          .error ()) := by
  refine ⟨?_, fun cd => rfl, ?_⟩
  · intro cd s
    by_cases h : s = ""
    · simp [loadWeeklyData, serTruthy, h]
    · simp [loadWeeklyData, serTruthy, h, parseSer]
  · intro s hs today wk
    simp [loadTodayData, serTruthy, hs, parseSer]

theorem c6_amended_witness :
    loadWeeklyData { goodWorksData := none, goodWorksWeekly := some (.garbage "###") } =
      .arr [] ∧
    loadTodayData "Sat May 10 2025"
      { goodWorksData := some (.garbage "###"), goodWorksWeekly := none } = .error () :=
  ⟨c6_amended.1 none "###",
   c6_amended.2.2 "###" (by decide) "Sat May 10 2025" none⟩

/-- C7 counterexample: renaming a category whose old name is absent does not
fail with notFound and does not leave the store unchanged — `editCategory`
never checks that `oldName` exists, spreads the undefined entry into an
empty object, reports success and inserts a new entry under the new name
whose time field is undefined. -/
theorem c7_counterexample :
    editCategory "B" "C" "#222222" [("A", { time := some 5, color := some "#111111" })]
        none =
      { ok := true,
        categories := [("A", { time := some 5, color := some "#111111" }),
                       ("C", { time := none, color := some "#222222" })],
        activeCategory := none } ∧
    ([("A", { time := some 5, color := some "#111111" }),
      ("C", { time := none, color := some "#222222" })] : CatStore) ≠
      [("A", { time := some 5, color := some "#111111" })] := by
  exact ⟨rfl, by decide⟩

/-- C7 amended: editCategory fails (store untouched) exactly on a blank
name or on a changed name that already exists; a successful rename of an
existing category preserves its accumulated time, updates its color and
repoints the active session to the new name; a same-name edit of an
existing category rewrites the color in place; and when the old name is
absent the call still succeeds — whether the name changes or not —
inserting an entry under the new name with the new color and an undefined
time (there is no notFound outcome). The six success/failure conjuncts
below partition every branch of the function. -/
theorem c7_amended :
    (∀ (oldName newName newColor : String) (cats : CatStore) (act : Option String),
        jsTrim oldName = "" ∨ jsTrim newName = "" →
        editCategory oldName newName newColor cats act =
          { ok := false, categories := cats, activeCategory := act }) ∧
    (∀ (oldName newName newColor : String) (cats : CatStore) (act : Option String),
        ¬(jsTrim oldName = "" ∨ jsTrim newName = "") →
        oldName ≠ newName → (lookupCat cats newName).isSome →
        editCategory oldName newName newColor cats act =
          { ok := false, categories := cats, activeCategory := act }) ∧
    (∀ (oldName newName newColor : String) (cats : CatStore) (act : Option String)
        (c : JSCat),
        ¬(jsTrim oldName = "" ∨ jsTrim newName = "") →
        oldName ≠ newName → lookupCat cats newName = none →
        lookupCat cats oldName = some c →
        editCategory oldName newName newColor cats act =
          { ok := true,
            categories := setCat (eraseCat cats oldName) newName
              { time := c.time, color := some newColor },
            activeCategory := if act = some oldName then some newName else act }) ∧
    (∀ (oldName newColor : String) (cats : CatStore) (act : Option String) (c : JSCat),
        ¬(jsTrim oldName = "" ∨ jsTrim oldName = "") →
        lookupCat cats oldName = some c →
        editCategory oldName oldName newColor cats act =
          { ok := true,
            categories := setCat cats oldName { time := c.time, color := some newColor },
            activeCategory := act }) ∧
    (∀ (oldName newName newColor : String) (cats : CatStore) (act : Option String),
        ¬(jsTrim oldName = "" ∨ jsTrim newName = "") →
        oldName ≠ newName → lookupCat cats newName = none →
        lookupCat cats oldName = none →
        editCategory oldName newName newColor cats act =
          { ok := true,
            categories := setCat (eraseCat cats oldName) newName
              { time := none, color := some newColor },
            activeCategory := if act = some oldName then some newName else act }) ∧
    (∀ (oldName newColor : String) (cats : CatStore) (act : Option String),
        ¬(jsTrim oldName = "" ∨ jsTrim oldName = "") →
        lookupCat cats oldName = none →
        editCategory oldName oldName newColor cats act =
          { ok := true,
            categories := setCat cats oldName { time := none, color := some newColor },
            activeCategory := act }) := by
  refine ⟨?_, ?_, ?_, ?_, ?_, ?_⟩
  · intro oldName newName newColor cats act h
    simp only [editCategory, if_pos h]
  · intro oldName newName newColor cats act htrim hne hsome
    have hcond : oldName ≠ newName ∧ (lookupCat cats newName).isSome = true := ⟨hne, hsome⟩
    simp only [editCategory, if_neg htrim, if_pos hcond]
  · intro oldName newName newColor cats act c htrim hne hnew hold
    simp only [editCategory, if_neg htrim, hnew, hold]
    simp [hne]
  · intro oldName newColor cats act c htrim hold
    simp only [editCategory, if_neg htrim, hold]
    simp
  · intro oldName newName newColor cats act htrim hne hnew hold
    simp only [editCategory, if_neg htrim, hnew, hold]
    simp [hne]
  · intro oldName newColor cats act htrim hold
    simp only [editCategory, if_neg htrim, hold]
    simp

theorem c7_amended_witness :
    editCategory "Old" "New" "#222222"
        [("Old", { time := some 7, color := some "#111111" })] (some "Old") =
      { ok := true,
        categories := [("New", { time := some 7, color := some "#222222" })],
        activeCategory := some "New" } ∧
    editCategory "Gone" "Gone" "#333333" [] none =
      { ok := true,
        categories := [("Gone", { time := none, color := some "#333333" })],
        activeCategory := none } := by
  have h1 := c7_amended.2.2.1 "Old" "New" "#222222"
      [("Old", { time := some 7, color := some "#111111" })] (some "Old")
      { time := some 7, color := some "#111111" }
      (by decide) (by decide) rfl rfl
  have h2 := c7_amended.2.2.2.2.2 "Gone" "#333333" [] none (by decide) rfl
  exact ⟨h1, h2⟩

/-- C2 amended: only the countdown tick follows the wall-clock-delta policy.
Part one: the stopwatch callback adds exactly 1 second per delivered
callback, with no clock input, so delayed or missed callbacks lose time.
Part two: the countdown loop, over any nondecreasing schedule of callback
instants that stays before the deadline, leaves the category credited with
exactly `floor((lastTick - startTime) / 1000)` whole seconds — sub-second
remainders are carried and whole seconds are never double-counted, even
when callbacks are delayed, bunched or missed. -/
theorem c2_amended :
    (∀ (name : String) (prev : CatStore) (c : JSCat),
        lookupCat prev name = some c →
        stopwatchTick name prev =
          .ok (setCat prev name { c with time := c.time.map (fun t => t + 1) })) ∧
    (∀ (name : String) (col : Option String) (start endT T : Int) (ticks : List Int),
        List.Chain' (· ≤ ·) (start :: ticks) →
        (∀ t ∈ ticks, t < endT) →
        runTimer name start endT ticks
          (startTimerState name [(name, { time := some T, color := col })]) =
        .ok { categories :=
                [(name, { time := some (T + floorDiv1000 (ticks.getLastD start - start)),
                          color := col })],
              activeCategory := some name, intervalLive := true,
              elapsedIntervals := floorDiv1000 (ticks.getLastD start - start),
              completionSignals := 0 }) := by
  constructor
  · intro name prev c hlook
    unfold stopwatchTick
    rw [hlook]
  · intro name col start endT T ticks hchain hwin
    have h := c2_run name col start endT T ticks start hchain hwin le_rfl
    rw [show start - start = (0 : Int) by ring] at h
    rw [show floorDiv1000 0 = (0 : Int) from rfl] at h
    rw [add_zero] at h
    exact h

theorem c2_amended_witness :
    stopwatchTick "Reading" [("Reading", { time := some 2, color := some "#4C8BF5" })] =
      .ok [("Reading", { time := some 3, color := some "#4C8BF5" })] ∧
    runTimer "Work" 0 10000 [1500, 1600, 3200]
      (startTimerState "Work" [("Work", { time := some 0, color := none })]) =
    .ok { categories := [("Work", { time := some 3, color := none })],
          activeCategory := some "Work", intervalLive := true,
          elapsedIntervals := 3, completionSignals := 0 } := by
  refine ⟨?_, ?_⟩
  · exact c2_amended.1 "Reading" [("Reading", { time := some 2, color := some "#4C8BF5" })]
      { time := some 2, color := some "#4C8BF5" } rfl
  · exact c2_amended.2 "Work" none 0 10000 0 [1500, 1600, 3200]
      (by norm_num [List.chain'_cons]) (by decide)

theorem viewCurrent_set_weekly (ls : LS) (x : Option Ser) :
    viewCurrent { ls with goodWorksWeekly := x } = viewCurrent ls := rfl

theorem viewWeekly_set_data (ls : LS) (x : Option Ser) :
    viewWeekly { ls with goodWorksData := x } = viewWeekly ls := rfl

/-- C9: importing the snapshot produced by a successful export restores a
current-day record and a historical log identical to those at export time
(identical as parsed records: the stored strings are re-serialized). -/
theorem c9_roundtrip (ls : LS) (exportDate : String) (snap : JValue)
    (h : exportSnapshot exportDate ls = .ok snap) :
    (importDataFromJson (.jval snap) ls).1 = true ∧
    viewCurrent ((importDataFromJson (.jval snap) ls).2) = viewCurrent ls ∧
    viewWeekly ((importDataFromJson (.jval snap) ls).2) = viewWeekly ls := by
  unfold exportSnapshot at h
  cases hcv : viewCurrent ls with
  | error e => rw [hcv] at h; exact absurd h (by simp)
  | ok cv =>
    rw [hcv] at h
    cases hav : viewWeekly ls with
    | error e => rw [hav] at h; exact absurd h (by simp)
    | ok av =>
      rw [hav] at h
      have hsnap : snap = .obj [("version", .num 1), ("exportDate", .str exportDate),
          ("currentDay", cv), ("archiveData", av)] := by
        cases h
        rfl
      subst hsnap
      have l1 : lookupField [("version", JValue.num 1), ("exportDate", JValue.str exportDate),
          ("currentDay", cv), ("archiveData", av)] "version" = some (JValue.num 1) := rfl
      have l2 : lookupField [("version", JValue.num 1), ("exportDate", JValue.str exportDate),
          ("currentDay", cv), ("archiveData", av)] "currentDay" = some cv := rfl
      have l3 : lookupField [("version", JValue.num 1), ("exportDate", JValue.str exportDate),
          ("currentDay", cv), ("archiveData", av)] "archiveData" = some av := rfl
      have hT : jsTruthy (JValue.obj [("version", JValue.num 1),
          ("exportDate", JValue.str exportDate), ("currentDay", cv),
          ("archiveData", av)]) = true := rfl
      have hTO : jsTypeofObject (JValue.obj [("version", JValue.num 1),
          ("exportDate", JValue.str exportDate), ("currentDay", cv),
          ("archiveData", av)]) = true := rfl
      have hV : jsTruthy (JValue.num 1) = true := rfl
      have hG : jsGtOne (JValue.num 1) = false := rfl
      simp only [importDataFromJson, parseSer, l1, l2, l3, hT, hTO, hV, hG, Bool.not_true,
                 Bool.or_self, Bool.false_eq_true, if_false, if_true]
      cases hx : av with
      | arr l =>
        subst hx
        cases hcvt : jsTruthy cv with
        | true => exact ⟨trivial, rfl, rfl⟩
        | false => exact ⟨trivial, hcv, rfl⟩
      | null =>
        subst hx
        cases hcvt : jsTruthy cv with
        | true => exact ⟨trivial, rfl, hav⟩
        | false => exact ⟨trivial, hcv, hav⟩
      | bool b =>
        subst hx
        cases hcvt : jsTruthy cv with
        | true => exact ⟨trivial, rfl, hav⟩
        | false => exact ⟨trivial, hcv, hav⟩
      | num n =>
        subst hx
        cases hcvt : jsTruthy cv with
        | true => exact ⟨trivial, rfl, hav⟩
        | false => exact ⟨trivial, hcv, hav⟩
      | str st =>
        subst hx
        cases hcvt : jsTruthy cv with
        | true => exact ⟨trivial, rfl, hav⟩
        | false => exact ⟨trivial, hcv, hav⟩
      | obj fs =>
        subst hx
        cases hcvt : jsTruthy cv with
        | true => exact ⟨trivial, rfl, hav⟩
        | false => exact ⟨trivial, hcv, hav⟩

theorem c9_roundtrip_witness :
    (importDataFromJson
      (.jval (.obj [("version", .num 1), ("exportDate", .str "2025-05-10"),
                    ("currentDay", encodeDay ⟨"Sat May 10 2025", [("Work", ⟨5, "#9C27B0"⟩)]⟩),
                    ("archiveData", .arr [])]))
      { goodWorksData :=
          some (.jval (encodeDay ⟨"Sat May 10 2025", [("Work", ⟨5, "#9C27B0"⟩)]⟩)),
        goodWorksWeekly := some (.jval (.arr [])) }).1 = true ∧
    viewCurrent ((importDataFromJson
      (.jval (.obj [("version", .num 1), ("exportDate", .str "2025-05-10"),
                    ("currentDay", encodeDay ⟨"Sat May 10 2025", [("Work", ⟨5, "#9C27B0"⟩)]⟩),
                    ("archiveData", .arr [])]))
      { goodWorksData :=
          some (.jval (encodeDay ⟨"Sat May 10 2025", [("Work", ⟨5, "#9C27B0"⟩)]⟩)),
        goodWorksWeekly := some (.jval (.arr [])) }).2) =
      viewCurrent
        { goodWorksData :=
            some (.jval (encodeDay ⟨"Sat May 10 2025", [("Work", ⟨5, "#9C27B0"⟩)]⟩)),
          goodWorksWeekly := some (.jval (.arr [])) } ∧
    viewWeekly ((importDataFromJson
      (.jval (.obj [("version", .num 1), ("exportDate", .str "2025-05-10"),
                    ("currentDay", encodeDay ⟨"Sat May 10 2025", [("Work", ⟨5, "#9C27B0"⟩)]⟩),
                    ("archiveData", .arr [])]))
      { goodWorksData :=
          some (.jval (encodeDay ⟨"Sat May 10 2025", [("Work", ⟨5, "#9C27B0"⟩)]⟩)),
        goodWorksWeekly := some (.jval (.arr [])) }).2) =
      viewWeekly
        { goodWorksData :=
            some (.jval (encodeDay ⟨"Sat May 10 2025", [("Work", ⟨5, "#9C27B0"⟩)]⟩)),
          goodWorksWeekly := some (.jval (.arr [])) } :=
  c9_roundtrip
    { goodWorksData :=
        some (.jval (encodeDay ⟨"Sat May 10 2025", [("Work", ⟨5, "#9C27B0"⟩)]⟩)),
      goodWorksWeekly := some (.jval (.arr [])) }
    "2025-05-10" _ rfl

/-- C10: an import whose input parses to a JSON object with version absent
or a number at most 1 succeeds even when the snapshot carries neither a
currentDay value nor an archiveData array, and in that case both stored
blobs are left exactly as they were; in particular importing the empty
object is a successful no-op. -/
theorem c10_import_minimal_object (fields : List (String × JValue)) (ls : LS)
    (hv : lookupField fields "version" = none ∨
          ∃ n : Int, n ≤ 1 ∧ lookupField fields "version" = some (.num n))
    (hc : lookupField fields "currentDay" = none)
    (ha : lookupField fields "archiveData" = none) :
    importDataFromJson (.jval (.obj fields)) ls = (true, ls) := by
  have hT : jsTruthy (JValue.obj fields) = true := rfl
  have hTO : jsTypeofObject (JValue.obj fields) = true := rfl
  simp only [importDataFromJson, parseSer, hT, hTO, hc, ha, Bool.not_true, Bool.or_self,
             Bool.false_eq_true, if_false]
  rcases hv with h | ⟨n, hn, h⟩
  · rw [h]
    rfl
  · rw [h]
    by_cases hz : n = 0
    · subst hz
      rfl
    · have h1 : jsTruthy (JValue.num n) = true := by simp [jsTruthy, hz]
      have hg : jsGtOne (JValue.num n) = false := by
        simp only [jsGtOne, jsNum]
        simp
        omega
      simp [h1, hg]

theorem c10_import_minimal_witness :
    importDataFromJson (.jval (.obj []))
      { goodWorksData := some (.jval (encodeDay ⟨"Sat May 10 2025", []⟩)),
        goodWorksWeekly := some (.jval (.arr [])) } =
    (true, { goodWorksData := some (.jval (encodeDay ⟨"Sat May 10 2025", []⟩)),
             goodWorksWeekly := some (.jval (.arr [])) }) :=
  c10_import_minimal_object []
    { goodWorksData := some (.jval (encodeDay ⟨"Sat May 10 2025", []⟩)),
      goodWorksWeekly := some (.jval (.arr [])) }
    (Or.inl rfl) rfl rfl

end GoodWorks
